import Mathlib

/-!
Verification development for the Charleston-Flood-Risk-Digital-Twin
batch flood-image analyzer (`scripts/flood_image_analyzer.py`).

The Python program is shallowly embedded: JSON documents become the
inductive `JsonValue`, Python dicts become association lists with
dict-literal update semantics, `json.loads` becomes the executable
recursive-descent decoder `json_loads`, and the analyzer's methods
(`parse_json_response`, `analyze_image`, `get_image_files`,
`analyze_batch`) become total Lean functions over explicit environments
that supply the outcomes of the external effects (file reads, API calls,
wall-clock timestamps).
-/

set_option maxHeartbeats 1000000
set_option maxRecDepth 100000

/-- A JSON value as produced by Python's `json.loads`.  Numbers are
modelled as integers: every numeric literal appearing in this program
(depth estimates, exemplar depths) is an integer, and the decoder below
rejects fraction/exponent syntax, which this program never relies on.
Objects carry their members as an insertion-ordered association list
with distinct keys, exactly like a CPython `dict`. -/
inductive JsonValue where
  | null
  | bool (b : Bool)
  | num (n : Int)
  | str (s : String)
  | arr (xs : List JsonValue)
  | obj (fields : List (String × JsonValue))

/-- A Python dict with `str` keys and JSON values. -/
abbrev PyDict := List (String × JsonValue)

/-- Dict lookup.  Later entries take priority, matching the update
semantics used by `dictInsert`/`mergeDict` below (for the well-formed
dicts this development produces, keys are distinct, so this agrees with
plain association-list lookup). -/
def pyGet : PyDict → String → Option JsonValue
  | [], _ => none
  | (k, v) :: rest, key =>
    match pyGet rest key with
    | some w => some w
    | none => if key = k then some v else none

/-- `d[k] = v` on a CPython dict: if the key is present its value is
replaced in place (keeping its original position), otherwise the pair is
appended at the end. -/
def dictInsert (d : PyDict) (k : String) (v : JsonValue) : PyDict :=
  if d.any (fun kv => kv.1 = k) then
    d.map (fun kv => if kv.1 = k then (k, v) else kv)
  else
    d ++ [(k, v)]

/-- The Python dict literal `\x7b**b, **d\x7d`: start from `b` and update with
each entry of `d` in order.  Keys of `d` already present in `b` override
the value of `b` while keeping the original position. -/
def mergeDict (b : PyDict) : PyDict → PyDict
  | [] => b
  | (k, v) :: rest => mergeDict (dictInsert b k v) rest

/-- Python truthiness of a JSON value (`bool(v)`). -/
def pyTruthy : JsonValue → Bool
  | .null => false
  | .bool b => b
  | .num n => n != 0
  | .str s => s ≠ ""
  | .arr xs => ¬ xs.isEmpty
  | .obj fs => ¬ fs.isEmpty

/-! ### A model of `json.loads`

A fuel-indexed recursive-descent decoder for the JSON grammar accepted
by Python's `json.loads` (strict mode), restricted to integer numeric
literals and to `\uXXXX` escapes outside the surrogate range; this
program never produces or consumes the excluded forms. -/

/-- The characters `json.loads` treats as insignificant whitespace. -/
def isJsonWs (c : Char) : Bool :=
  c = ' ' || c = '\t' || c = '\n' || c = '\r'

def skipWs : List Char → List Char
  | [] => []
  | c :: cs => if isJsonWs c then skipWs cs else c :: cs

def hexDigitVal (c : Char) : Option Nat :=
  if '0' ≤ c ∧ c ≤ '9' then some (c.toNat - 48)
  else if 'a' ≤ c ∧ c ≤ 'f' then some (c.toNat - 87)
  else if 'A' ≤ c ∧ c ≤ 'F' then some (c.toNat - 55)
  else none

/-- Decode a JSON string body (the opening quote has been consumed),
returning the decoded string and the remaining input. -/
def decodeJsonString : Nat → List Char → List Char → Option (String × List Char)
  | 0, _, _ => none
  | _ + 1, _, [] => none
  | fuel + 1, acc, c :: rest =>
    if c = '"' then some (String.mk acc.reverse, rest)
    else if c = '\\' then
      match rest with
      | [] => none
      | e :: rest2 =>
        if e = '"' then decodeJsonString fuel ('"' :: acc) rest2
        else if e = '\\' then decodeJsonString fuel ('\\' :: acc) rest2
        else if e = '/' then decodeJsonString fuel ('/' :: acc) rest2
        else if e = 'b' then decodeJsonString fuel (Char.ofNat 8 :: acc) rest2
        else if e = 'f' then decodeJsonString fuel (Char.ofNat 12 :: acc) rest2
        else if e = 'n' then decodeJsonString fuel ('\n' :: acc) rest2
        else if e = 'r' then decodeJsonString fuel ('\r' :: acc) rest2
        else if e = 't' then decodeJsonString fuel ('\t' :: acc) rest2
        else if e = 'u' then
          match rest2 with
          | h1 :: h2 :: h3 :: h4 :: rest3 =>
            match hexDigitVal h1, hexDigitVal h2, hexDigitVal h3, hexDigitVal h4 with
            | some a, some b, some c2, some d =>
              let n := ((a * 16 + b) * 16 + c2) * 16 + d
              if 0xD800 ≤ n ∧ n ≤ 0xDFFF then none
              else decodeJsonString fuel (Char.ofNat n :: acc) rest3
            | _, _, _, _ => none
          | _ => none
        else none
    else if c.toNat < 32 then none
    else decodeJsonString fuel (c :: acc) rest

def natOfDigits (ds : List Char) : Nat :=
  ds.foldl (fun a c => a * 10 + (c.toNat - 48)) 0

/-- Decode a JSON numeric literal.  Integer literals only (an optional
minus sign and digits, no redundant leading zero); fraction or exponent
syntax is rejected, see the module comment of this section. -/
def decodeJsonNumber (cs : List Char) : Option (JsonValue × List Char) :=
  let (neg, cs1) :=
    match cs with
    | c :: rest => if c = '-' then (true, rest) else (false, cs)
    | [] => (false, cs)
  match cs1 with
  | [] => none
  | c :: _ =>
    if ¬ c.isDigit then none
    else
      let ds := cs1.takeWhile Char.isDigit
      let rest := cs1.dropWhile Char.isDigit
      if ds.length > 1 ∧ ds.head? = some '0' then none
      else
        let bad : Bool :=
          match rest with
          | r :: _ => r = '.' || r = 'e' || r = 'E'
          | [] => false
        if bad then none
        else
          let n : Int := natOfDigits ds
          some (.num (if neg then -n else n), rest)

mutual

/-- Decode one JSON value from the input, skipping leading whitespace. -/
def decodeJsonValue : Nat → List Char → Option (JsonValue × List Char)
  | 0, _ => none
  | fuel + 1, cs =>
    match skipWs cs with
    | [] => none
    | c :: rest =>
      if c = 'n' then
        if ['u', 'l', 'l'].isPrefixOf rest then some (.null, rest.drop 3) else none
      else if c = 't' then
        if ['r', 'u', 'e'].isPrefixOf rest then some (.bool true, rest.drop 3) else none
      else if c = 'f' then
        if ['a', 'l', 's', 'e'].isPrefixOf rest then some (.bool false, rest.drop 4) else none
      else if c = '"' then
        match decodeJsonString (fuel + 1) [] rest with
        | some (s, rest2) => some (.str s, rest2)
        | none => none
      else if c = '\x7b' then
        match skipWs rest with
        | '\x7d' :: rest2 => some (.obj [], rest2)
        | _ =>
          match decodeJsonMember fuel rest with
          | some (k, v, rest2) => decodeJsonObjTail fuel (dictInsert [] k v) rest2
          | none => none
      else if c = '[' then
        match skipWs rest with
        | ']' :: rest2 => some (.arr [], rest2)
        | _ =>
          match decodeJsonValue fuel rest with
          | some (v, rest2) => decodeJsonArrTail fuel [v] rest2
          | none => none
      else if c = '-' ∨ c.isDigit then decodeJsonNumber (c :: rest)
      else none

/-- Decode one `"key": value` object member. -/
def decodeJsonMember : Nat → List Char → Option (String × JsonValue × List Char)
  | 0, _ => none
  | fuel + 1, cs =>
    match skipWs cs with
    | '"' :: rest =>
      match decodeJsonString (fuel + 1) [] rest with
      | some (k, rest2) =>
        match skipWs rest2 with
        | ':' :: rest3 =>
          match decodeJsonValue fuel rest3 with
          | some (v, rest4) => some (k, v, rest4)
          | none => none
        | _ => none
      | none => none
    | _ => none

/-- Decode the remainder of an object after at least one member: either
a closing brace or a comma and further members.  Duplicate keys follow
CPython semantics: the later value wins, at the original position. -/
def decodeJsonObjTail : Nat → PyDict → List Char → Option (JsonValue × List Char)
  | 0, _, _ => none
  | fuel + 1, acc, cs =>
    match skipWs cs with
    | '\x7d' :: rest => some (.obj acc, rest)
    | ',' :: rest =>
      match decodeJsonMember fuel rest with
      | some (k, v, rest2) => decodeJsonObjTail fuel (dictInsert acc k v) rest2
      | none => none
    | _ => none

/-- Decode the remainder of an array after at least one element. -/
def decodeJsonArrTail : Nat → List JsonValue → List Char → Option (JsonValue × List Char)
  | 0, _, _ => none
  | fuel + 1, acc, cs =>
    match skipWs cs with
    | ']' :: rest => some (.arr acc.reverse, rest)
    | ',' :: rest =>
      match decodeJsonValue fuel rest with
      | some (v, rest2) => decodeJsonArrTail fuel (v :: acc) rest2
      | none => none
    | _ => none

end

/-- Model of Python's `json.loads`: decode one JSON document and require
only whitespace to remain.  The fuel is amply larger than any possible
recursion depth for the given input. -/
def json_loads (s : String) : Option JsonValue :=
  match decodeJsonValue (s.length * 4 + 16) s.data with
  | some (v, rest) => if (skipWs rest).isEmpty then some v else none
  | none => none

/-! ### The tolerant recovery scan of `parse_json_response`

`parse_json_response` (flood_image_analyzer.py lines 252-270) first
tries `json.loads` on the whole content; on failure it searches for the
regex `\x5c\x7b[^\x7d]*"depth_cm_estimate"[^\x7d]*\x5c\x7d` (with DOTALL) and tries to
decode the matched substring; if that also fails it re-raises the
original decode error.  `re.search` semantics for this pattern: the
match starts at the leftmost `\x7b` whose run of characters up to the next
`\x7d` contains the quoted key, and ends at that first `\x7d`. -/

def lbrace : Char := '\x7b'
def rbrace : Char := '\x7d'

/-- The quoted key the recovery regex requires. -/
def depthKeyChars : List Char := "\"depth_cm_estimate\"".data

/-- Does `needle` occur as a contiguous run inside `hay`? -/
def containsSub (hay needle : List Char) : Bool :=
  match hay with
  | [] => needle.isEmpty
  | _ :: rest => needle.isPrefixOf hay || containsSub rest needle

/-- Split the input at the first `\x7d`: returns the characters before it
and the characters after it, or `none` when there is no `\x7d`. -/
def splitAtClose : List Char → Option (List Char × List Char)
  | [] => none
  | c :: rest =>
    if c = rbrace then some ([], rest)
    else
      match splitAtClose rest with
      | some (a, b) => some (c :: a, b)
      | none => none

/-- The substring matched by
`re.search(r'\x5c\x7b[^\x7d]*"depth_cm_estimate"[^\x7d]*\x5c\x7d', content, re.DOTALL)`:
scan left to right for a `\x7b` whose segment up to the first following `\x7d`
contains the quoted key; the match runs from that `\x7b` to that `\x7d`. -/
def firstBraceBlock : List Char → Option (List Char)
  | [] => none
  | c :: rest =>
    if c = lbrace then
      match splitAtClose rest with
      | some (mid, _) =>
        if containsSub mid depthKeyChars then some (lbrace :: (mid ++ [rbrace]))
        else firstBraceBlock rest
      | none => none
    else firstBraceBlock rest

def extract_json_block (content : String) : Option String :=
  (firstBraceBlock content.data).map String.mk

/-- `FloodImageAnalyzer.parse_json_response` (lines 252-270): direct
decode, then regex recovery, then propagate the original failure
(`none` models the re-raised `json.JSONDecodeError`). -/
def parse_json_response (content : String) : Option JsonValue :=
  match json_loads content with
  | some v => some v
  | none =>
    match extract_json_block content with
    | some s =>
      match json_loads s with
      | some v => some v
      | none => none
    | none => none

/-! ### Directory entries and `get_image_files`

`get_image_files` (lines 380-395) lists the plain files of the input
directory whose (lower-cased) extension is supported, and sorts them by
the key `(0, int(stem))` when `int(path.stem)` succeeds and `(1,
path.name)` otherwise. -/

/-- A filesystem path as seen by the analyzer: the parent directory, the
final component `name`, and whether `is_file()` holds.  `stem` and
`suffix` are derived from `name` by `pathlib`'s rule. -/
structure PyPath where
  parent : String
  name : String
  isFile : Bool
deriving DecidableEq

/-- `str(path)`. -/
def pyPathStr (p : PyPath) : String := p.parent ++ "/" ++ p.name

/-- Index of the last `.` in the name, if any. -/
def lastDotPos (name : String) : Option Nat :=
  (name.data.reverse.findIdx? (fun c => c = '.')).map
    (fun j => name.data.length - 1 - j)

/-- `pathlib.PurePath.suffix`: the part of the name from its last dot,
provided that dot is neither the first nor the last character. -/
def pathSuffix (name : String) : String :=
  match lastDotPos name with
  | some i =>
    if 0 < i ∧ i < name.data.length - 1 then String.mk (name.data.drop i) else ""
  | none => ""

/-- `pathlib.PurePath.stem`: the name with `pathSuffix` removed. -/
def pathStem (name : String) : String :=
  match lastDotPos name with
  | some i =>
    if 0 < i ∧ i < name.data.length - 1 then String.mk (name.data.take i) else name
  | none => name

/-- ASCII `str.lower()`; the supported extensions are all ASCII. -/
def asciiLower (s : String) : String :=
  String.mk (s.data.map (fun c =>
    if 'A' ≤ c ∧ c ≤ 'Z' then Char.ofNat (c.toNat + 32) else c))

/-- `SUPPORTED_FORMATS` (line 26). -/
def SUPPORTED_FORMATS : List String := [".jpg", ".jpeg", ".png", ".gif", ".webp"]

/-- The filter of lines 383-385: a plain file with a supported
extension. -/
def qualifies (p : PyPath) : Bool :=
  p.isFile && SUPPORTED_FORMATS.contains (asciiLower (pathSuffix p.name))

/-! Python's `int(str)`: optional surrounding whitespace, an optional
sign, then ASCII digits optionally separated by single underscores.
(Non-ASCII decimal digits, which `int` also accepts, do not occur in
this program's filenames and are out of scope.) -/

def isPyStripWs (c : Char) : Bool :=
  c = ' ' || c = '\t' || c = '\n' || c = '\r' || c = '\x0b' || c = '\x0c'

def stripEnds (cs : List Char) : List Char :=
  ((cs.dropWhile isPyStripWs).reverse.dropWhile isPyStripWs).reverse

/-- Digit run with optional single underscores between digits. -/
def digitsUAux : List Char → Nat → Option Nat
  | [], acc => some acc
  | c :: rest, acc =>
    if c.isDigit then digitsUAux rest (acc * 10 + (c.toNat - 48))
    else if c = '_' then
      match rest with
      | d :: _ => if d.isDigit then digitsUAux rest acc else none
      | [] => none
    else none

def digitsU (cs : List Char) : Option Nat :=
  match cs with
  | [] => none
  | c :: _ => if c.isDigit then digitsUAux cs 0 else none

/-- Model of Python's `int(s)` for base 10, `none` when `int` raises
`ValueError`. -/
def pyInt (s : String) : Option Int :=
  match stripEnds s.data with
  | '+' :: rest => (digitsU rest).map (fun n => (n : Int))
  | '-' :: rest => (digitsU rest).map (fun n => -(n : Int))
  | rest => (digitsU rest).map (fun n => (n : Int))

/-- Code-point lexicographic `≤` on strings, Python's `str` order. -/
def strLeB : List Char → List Char → Bool
  | [], _ => true
  | _ :: _, [] => false
  | a :: as, b :: bs =>
    if a.toNat < b.toNat then true
    else if b.toNat < a.toNat then false
    else strLeB as bs

/-- The comparison induced by `sort_key` (lines 387-393): numeric stems
first, ordered by their integer value; non-numeric stems after, ordered
by full filename. -/
def keyLE (a b : PyPath) : Bool :=
  match pyInt (pathStem a.name), pyInt (pathStem b.name) with
  | some m, some n => decide (m ≤ n)
  | some _, none => true
  | none, some _ => false
  | none, none => strLeB a.name.data b.name.data

/-- `FloodImageAnalyzer.get_image_files` (lines 380-395). -/
def get_image_files (entries : List PyPath) : List PyPath :=
  List.insertionSort (fun a b => keyLE a b = true) (entries.filter qualifies)

/-! ### `analyze_image` (lines 272-378)

The external effects are supplied by a `ModelEnv`: the outcome of
encoding the target image (`encode_image` either returns data that feeds
the prompt, or raises), the textual content produced by each
`chat.completions.create` call (indexed by retry round and model
identifier; `none` models a raised exception or a `None` content), and
the wall-clock timestamp.  The few-shot exemplar cache and the message
list only influence the API calls, which the environment already closes
over, so they carry no further state here. -/

structure ModelEnv where
  encodeResult : Except String Unit
  api : Nat → String → Option String
  timestamp : String

/-- `models_to_try` (line 307). -/
def models_to_try : List String := ["gpt-4o", "gpt-4o-mini"]

/-- One iteration of the inner try/except (lines 311-354): the call
itself may raise, empty content raises, unparseable content raises, and
content parsing to a non-object raises (`\x7b**analysis_data\x7d` needs a
mapping); any of these is caught and yields `none`. -/
def attemptModel (env : ModelEnv) (round : Nat) (m : String) : Option PyDict :=
  match env.api round m with
  | none => none
  | some content =>
    if content = "" then none
    else
      match parse_json_response content with
      | some (JsonValue.obj fields) => some fields
      | _ => none

/-- The inner `for model in models_to_try` loop of one round: returns
the models attempted this round (in order) and, if one succeeded, that
model together with its parsed fields. -/
def tryRound (env : ModelEnv) (round : Nat) : List String → List String × Option (String × PyDict)
  | [] => ([], none)
  | m :: rest =>
    match attemptModel env round m with
    | some d => ([m], some (m, d))
    | none =>
      let r := tryRound env round rest
      (m :: r.1, r.2)

/-- The outer `for attempt in range(max_retries)` loop, recorded as the
list of `(round, model)` attempts issued, the list of backoff sleeps
performed (`(attempt + 1) * 2` seconds after each fully-failed round
except the last), and the successful model/fields if any. -/
def runRounds (env : ModelEnv) (R : Nat) : List Nat → List (Nat × String) × List Nat × Option (String × PyDict)
  | [] => ([], [], none)
  | a :: rest =>
    let r := tryRound env a models_to_try
    match r.2 with
    | some s => (r.1.map (fun m => (a, m)), [], some s)
    | none =>
      let tail := runRounds env R rest
      (r.1.map (fun m => (a, m)) ++ tail.1,
       (if a < R - 1 then [(a + 1) * 2] else []) ++ tail.2.1,
       tail.2.2)

/-- The whole retry/fallback loop of `analyze_image` with `R =
max_retries` rounds. -/
def modelLoop (env : ModelEnv) (R : Nat) : List (Nat × String) × List Nat × Option (String × PyDict) :=
  runRounds env R (List.range R)

/-- Every `(round, model)` pair in schedule order: each round attempts
every candidate model. -/
def attemptSchedule (R : Nat) : List (Nat × String) :=
  (List.range R).bind (fun a => models_to_try.map (fun m => (a, m)))

/-- The full backoff schedule when every round fails: `(a + 1) * 2`
seconds after round `a` for every round but the last. -/
def backoffs (R : Nat) : List Nat :=
  (List.range (R - 1)).map (fun a => (a + 1) * 2)

/-- The fixed metadata of a success record (lines 343-350) before the
parsed fields are spread into the dict literal. -/
def baseRecord (p : PyPath) (ts m : String) : PyDict :=
  [("filename", .str p.name), ("filepath", .str (pyPathStr p)),
   ("timestamp", .str ts), ("model_used", .str m),
   ("analysis_success", .bool true)]

/-- The success record `\x7b"filename": ..., ..., "analysis_success": True,
**analysis_data\x7d`: the parsed fields are spread last and override the
metadata on key collision, per Python dict-literal semantics. -/
def successRecord (p : PyPath) (ts m : String) (d : PyDict) : PyDict :=
  mergeDict (baseRecord p ts m) d

/-- The failure record built by the `except` handler (lines 365-378). -/
def failureRecord (p : PyPath) (ts e : String) : PyDict :=
  [("filename", .str p.name), ("filepath", .str (pyPathStr p)),
   ("timestamp", .str ts), ("model_used", .str "none"),
   ("analysis_success", .bool false), ("error", .str e),
   ("depth_cm_estimate", .null), ("depth_range", .str "unknown"),
   ("passability", .str "unknown"),
   ("justification", .str ("分析失败: " ++ e))]

/-- The exception reaching the outer `except` handler, if any: an
encoding failure before any model is attempted, or the final
`raise Exception("所有模型和重试都失败了")` after exhaustion. -/
def failReason (env : ModelEnv) (R : Nat) : Option String :=
  match env.encodeResult with
  | .error e => some e
  | .ok _ =>
    match (modelLoop env R).2.2 with
    | some _ => none
    | none => some "所有模型和重试都失败了"

/-- `FloodImageAnalyzer.analyze_image` (lines 272-378).  Total: the
outer try/except converts every failure into a failure record. -/
def analyze_image (env : ModelEnv) (p : PyPath) (max_retries : Nat := 3) : PyDict :=
  match env.encodeResult with
  | .error e => failureRecord p env.timestamp e
  | .ok _ =>
    match (modelLoop env max_retries).2.2 with
    | some (m, d) => successRecord p env.timestamp m d
    | none => failureRecord p env.timestamp "所有模型和重试都失败了"

/-! ### The declared response schema (lines 101-124)

`response_schema` requires exactly the four content fields
(`additionalProperties: false`), types them, and constrains only
`passability` to an enumeration — which includes `"unknown"`.
`depth_range` is an arbitrary string as far as the schema goes. -/

def required_fields : List String :=
  ["depth_cm_estimate", "depth_range", "passability", "justification"]

/-- The `enum` of the `passability` property (line 114). -/
def passability_enum : List String := ["pass", "caution", "unsafe", "unknown"]

/-- The ten depth bands fixed by the prompt text (lines 69-78 and 94). -/
def depth_bands : List String :=
  ["<5", "5–10", "10–15", "15–20", "20–25", "25–30", "30–35", "35–40", "40–50", ">50"]

def isNumOpt : Option JsonValue → Bool
  | some (.num _) => true
  | _ => false

def isStrOpt : Option JsonValue → Bool
  | some (.str _) => true
  | _ => false

def isPassabilityOpt : Option JsonValue → Bool
  | some (.str s) => passability_enum.contains s
  | _ => false

/-- Conformance of a decoded object to `response_schema`: all four
required members present with the declared types, `passability` in its
enumeration, and no additional properties. -/
def matchesResponseSchema (d : PyDict) : Bool :=
  isNumOpt (pyGet d "depth_cm_estimate") &&
  isStrOpt (pyGet d "depth_range") &&
  isPassabilityOpt (pyGet d "passability") &&
  isStrOpt (pyGet d "justification") &&
  d.all (fun kv => required_fields.contains kv.1)

/-! ### `analyze_batch` (lines 397-462)

The per-image environments are supplied by a `BatchEnv`.  The returned
value models the Python return value together with the list of file
writes performed (`output_file`, serialized report); the early return
for an empty file list performs no write. -/

structure BatchSummary where
  total_images : Nat
  successful_analyses : Nat
  failed_analyses : Nat
  success_rate : String
  analysis_timestamp : String
deriving DecidableEq

structure BatchReport where
  summary : BatchSummary
  results : List PyDict

structure BatchEnv where
  image : Nat → ModelEnv
  sumTimestamp : String

/-- The percentage string `f"\x7b(success_count / len(image_files) * 100):.1f\x7d%"`,
computed on the exact rational with round-half-to-even at one decimal
place (binary floating-point artifacts are out of scope; they cannot
change any value this development evaluates). -/
def formatPct (succ total : Nat) : String :=
  let q := succ * 1000
  let d := q / total
  let r := q % total
  let rounded :=
    if 2 * r > total then d + 1
    else if 2 * r < total then d
    else if d % 2 = 0 then d else d + 1
  toString (rounded / 10) ++ "." ++ toString (rounded % 10) ++ "%"

/-- `FloodImageAnalyzer.analyze_batch` (lines 397-462).  `dirExists`
models `images_path.exists()`; `entries` the directory contents.  The
`.error` case is the raised `FileNotFoundError`; otherwise the result is
the returned `\x7bsummary, results\x7d` report together with the file writes
performed.  Note the empty-directory early return (lines 407-417)
returns a zero report without writing `output_file`. -/
def analyze_batch (env : BatchEnv) (dirExists : Bool) (entries : List PyPath)
    (images_dir output_file : String) :
    Except String (BatchReport × List (String × BatchReport)) :=
  if dirExists = false then .error ("图像目录不存在: " ++ images_dir)
  else
    let image_files := get_image_files entries
    if image_files.isEmpty then
      .ok (⟨⟨0, 0, 0, "0.0%", env.sumTimestamp⟩, []⟩, [])
    else
      let results := image_files.enum.map (fun pr => analyze_image (env.image pr.1) pr.2 3)
      let success_count := results.countP (fun r => (pyGet r "analysis_success").elim false pyTruthy)
      let summary : BatchSummary :=
        ⟨image_files.length, success_count, image_files.length - success_count,
         formatPct success_count image_files.length, env.sumTimestamp⟩
      let report : BatchReport := ⟨summary, results⟩
      .ok (report, [(output_file, report)])

/-! ### Lemmas: dict lookup under update and merge -/

/-- Choice of the first defined option, used to state merge lookups. -/
def firstSome (x y : Option JsonValue) : Option JsonValue :=
  match x with
  | some v => some v
  | none => y

theorem pyGet_append (a c : PyDict) (k : String) :
    pyGet (a ++ c) k = firstSome (pyGet c k) (pyGet a k) := by
  induction a with
  | nil => cases h : pyGet c k <;> simp [firstSome, pyGet, h]
  | cons hd tl ih =>
    obtain ⟨k0, v0⟩ := hd
    simp only [List.cons_append, pyGet]
    rw [List.append_eq, ih]
    cases h : pyGet c k <;> cases h2 : pyGet tl k <;>
      simp [firstSome, pyGet, h, h2]

theorem pyGet_replaceAll (b : PyDict) (k : String) (v : JsonValue) (x : String) :
    pyGet (b.map (fun kv => if kv.1 = k then (k, v) else kv)) x =
      if x = k then (if b.any (fun kv => kv.1 = k) then some v else none)
      else pyGet b x := by
  induction b with
  | nil => by_cases hxk : x = k <;> simp [pyGet, hxk]
  | cons hd tl ih =>
    obtain ⟨k0, v0⟩ := hd
    simp only [List.map_cons, List.any_cons]
    by_cases hk0 : k0 = k
    · rw [if_pos hk0]
      simp only [pyGet]
      rw [ih]
      by_cases hxk : x = k
      · rcases Bool.eq_false_or_eq_true (tl.any (fun kv => kv.1 = k)) with htl | htl <;>
          simp [hxk, htl, hk0]
      · have hxk0 : ¬ x = k0 := by rw [hk0]; exact hxk
        cases h2 : pyGet tl x <;> simp [pyGet, hxk, h2, hxk0]
    · rw [if_neg hk0]
      simp only [pyGet]
      rw [ih]
      by_cases hxk : x = k
      · have hxk0 : ¬ x = k0 := by rw [hxk]; exact fun h => hk0 h.symm
        have hkk0 : ¬ k = k0 := fun h => hk0 h.symm
        rcases Bool.eq_false_or_eq_true (tl.any (fun kv => kv.1 = k)) with htl | htl <;>
          simp [hxk, hk0, htl, hxk0, hkk0]
      · cases h2 : pyGet tl x <;> simp [pyGet, hxk, h2]

theorem pyGet_dictInsert (b : PyDict) (k : String) (v : JsonValue) (x : String) :
    pyGet (dictInsert b k v) x = if x = k then some v else pyGet b x := by
  unfold dictInsert
  by_cases hany : b.any (fun kv => kv.1 = k) = true
  · rw [if_pos hany, pyGet_replaceAll]
    by_cases hxk : x = k <;> simp [hxk, hany]
  · rw [if_neg hany, pyGet_append]
    by_cases hxk : x = k <;> simp [hxk, pyGet, firstSome]

theorem pyGet_mergeDict (d b : PyDict) (x : String) :
    pyGet (mergeDict b d) x = firstSome (pyGet d x) (pyGet b x) := by
  induction d generalizing b with
  | nil => cases h : pyGet b x <;> simp [mergeDict, pyGet, firstSome, h]
  | cons hd tl ih =>
    obtain ⟨k, v⟩ := hd
    simp only [mergeDict]
    rw [ih, pyGet_dictInsert]
    cases h : pyGet tl x with
    | some w => simp [pyGet, firstSome, h]
    | none =>
      by_cases hxk : x = k
      · subst hxk
        simp [firstSome, pyGet, h]
      · simp [pyGet, firstSome, h, hxk]

theorem pyGet_none_of_keys (d : PyDict) (k : String)
    (h : ∀ kv ∈ d, kv.1 ≠ k) : pyGet d k = none := by
  induction d with
  | nil => rfl
  | cons hd tl ih =>
    obtain ⟨k0, v0⟩ := hd
    have h0 : k0 ≠ k := h (k0, v0) (List.mem_cons_self _ _)
    have htl := ih (fun kv hkv => h kv (List.mem_cons_of_mem _ hkv))
    have hne : ¬ k = k0 := fun hk => h0 hk.symm
    simp [pyGet, htl, hne]

/-! ### Lemmas: the recovery scan -/

theorem splitAtClose_app (mid post : List Char) (h : rbrace ∉ mid) :
    splitAtClose (mid ++ rbrace :: post) = some (mid, post) := by
  induction mid with
  | nil => simp [splitAtClose]
  | cons c cs ih =>
    have hc : ¬ c = rbrace := fun e => h (e ▸ List.mem_cons_self _ _)
    simp [splitAtClose, hc, ih (fun hm => h (List.mem_cons_of_mem _ hm))]

theorem splitAtClose_decomp (cs : List Char) (mid rest : List Char)
    (h : splitAtClose cs = some (mid, rest)) :
    cs = mid ++ rbrace :: rest := by
  induction cs generalizing mid with
  | nil => simp [splitAtClose] at h
  | cons c cs2 ih =>
    by_cases hc : c = rbrace
    · simp [splitAtClose, hc] at h
      obtain ⟨h1, h2⟩ := h
      subst h1
      subst h2
      subst hc
      simp
    · simp only [splitAtClose, if_neg hc] at h
      cases h2 : splitAtClose cs2 with
      | none => rw [h2] at h; simp at h
      | some pr =>
        obtain ⟨a, b⟩ := pr
        rw [h2] at h
        simp at h
        obtain ⟨hm, hb⟩ := h
        subst hm
        subst hb
        have := ih a h2
        simp [this]

theorem firstBraceBlock_decomp (cs bl : List Char)
    (h : firstBraceBlock cs = some bl) :
    ∃ pre post, cs = pre ++ bl ++ post := by
  induction cs with
  | nil => simp [firstBraceBlock] at h
  | cons c rest ih =>
    by_cases hc : c = lbrace
    · simp only [firstBraceBlock, if_pos hc] at h
      cases hs : splitAtClose rest with
      | none => rw [hs] at h; simp at h
      | some pr =>
        obtain ⟨mid, rest2⟩ := pr
        rw [hs] at h
        dsimp only at h
        by_cases hk : containsSub mid depthKeyChars = true
        · rw [if_pos hk] at h
          have hbl : bl = lbrace :: (mid ++ [rbrace]) := by
            injection h with h2
            exact h2.symm
          refine ⟨[], rest2, ?_⟩
          rw [hbl, hc, splitAtClose_decomp rest mid rest2 hs]
          simp
        · rw [if_neg hk] at h
          obtain ⟨pre, post, hpp⟩ := ih h
          exact ⟨c :: pre, post, by simp [hpp]⟩
    · simp only [firstBraceBlock, if_neg hc] at h
      obtain ⟨pre, post, hpp⟩ := ih h
      exact ⟨c :: pre, post, by simp [hpp]⟩

theorem firstBraceBlock_embedded (pre mid post : List Char)
    (hpre : lbrace ∉ pre) (hmid : rbrace ∉ mid)
    (hkey : containsSub mid depthKeyChars = true) :
    firstBraceBlock (pre ++ lbrace :: (mid ++ rbrace :: post)) =
      some (lbrace :: (mid ++ [rbrace])) := by
  induction pre with
  | nil =>
    simp only [List.nil_append, firstBraceBlock, if_pos rfl]
    rw [splitAtClose_app mid post hmid]
    simp [hkey]
  | cons c cs ih =>
    have hc : ¬ c = lbrace := fun e => hpre (e ▸ List.mem_cons_self _ _)
    simp only [List.cons_append, firstBraceBlock, if_neg hc]
    exact ih (fun hm => hpre (List.mem_cons_of_mem _ hm))

theorem string_mk_append (a b : List Char) :
    String.mk a ++ String.mk b = String.mk (a ++ b) := rfl

/-! ### Lemmas: the `sort_key` ordering -/

theorem strLeB_total : ∀ x y : List Char, strLeB x y = true ∨ strLeB y x = true := by
  intro x
  induction x with
  | nil => intro y; left; rfl
  | cons a as ih =>
    intro y
    cases y with
    | nil => right; rfl
    | cons b bs =>
      simp only [strLeB]
      rcases Nat.lt_trichotomy a.toNat b.toNat with h | h | h
      · left; simp [h]
      · simp [h, Nat.lt_irrefl]
        exact ih bs
      · right; simp [h]

theorem strLeB_trans : ∀ x y z : List Char,
    strLeB x y = true → strLeB y z = true → strLeB x z = true := by
  intro x
  induction x with
  | nil => intros; rfl
  | cons a as ih =>
    intro y z hxy hyz
    cases y with
    | nil => simp [strLeB] at hxy
    | cons b bs =>
      cases z with
      | nil => simp [strLeB] at hyz
      | cons c cs =>
        simp only [strLeB] at hxy hyz ⊢
        split_ifs at hxy hyz ⊢ <;>
          first
          | rfl
          | omega
          | exact ih bs cs hxy hyz

theorem keyLE_total : ∀ a b : PyPath, keyLE a b = true ∨ keyLE b a = true := by
  intro a b
  unfold keyLE
  rcases ha : pyInt (pathStem a.name) with _ | m <;>
    rcases hb : pyInt (pathStem b.name) with _ | n
  · exact strLeB_total _ _
  · right; rfl
  · left; rfl
  · rcases Int.le_total m n with h | h
    · left; simp [h]
    · right; simp [h]

theorem keyLE_trans : ∀ a b c : PyPath,
    keyLE a b = true → keyLE b c = true → keyLE a c = true := by
  intro a b c hab hbc
  unfold keyLE at hab hbc ⊢
  rcases ha : pyInt (pathStem a.name) with _ | m <;>
    rcases hb : pyInt (pathStem b.name) with _ | n <;>
      rcases hc : pyInt (pathStem c.name) with _ | p <;>
        simp only [ha, hb, hc] at hab hbc ⊢ <;>
          first
          | rfl
          | exact strLeB_trans _ _ _ hab hbc
          | exact decide_eq_true (Int.le_trans (of_decide_eq_true hab) (of_decide_eq_true hbc))
          | simp at hab
          | simp at hbc

instance : IsTotal PyPath (fun a b => keyLE a b = true) := ⟨keyLE_total⟩

instance : IsTrans PyPath (fun a b => keyLE a b = true) := ⟨keyLE_trans⟩

theorem get_image_files_sorted (entries : List PyPath) :
    List.Pairwise (fun a b => keyLE a b = true) (get_image_files entries) :=
  List.sorted_insertionSort _ _

theorem get_image_files_perm (entries : List PyPath) :
    (get_image_files entries).Perm (entries.filter qualifies) :=
  List.perm_insertionSort _ _

/-! ### Lemmas: the retry/fallback loop -/

theorem tryRound_all_fail (env : ModelEnv) (a : Nat) (ms : List String)
    (h : ∀ m ∈ ms, attemptModel env a m = none) :
    tryRound env a ms = (ms, none) := by
  induction ms with
  | nil => rfl
  | cons m rest ih =>
    have hm := h m (List.mem_cons_self _ _)
    simp [tryRound, hm, ih (fun m2 hm2 => h m2 (List.mem_cons_of_mem _ hm2))]

theorem tryRound_first_success (env : ModelEnv) (a : Nat)
    (mPre : List String) (m : String) (mRest : List String) (d : PyDict)
    (hpre : ∀ m2 ∈ mPre, attemptModel env a m2 = none)
    (hm : attemptModel env a m = some d) :
    tryRound env a (mPre ++ m :: mRest) = (mPre ++ [m], some (m, d)) := by
  induction mPre with
  | nil => simp [tryRound, hm]
  | cons m0 rest ih =>
    have h0 := hpre m0 (List.mem_cons_self _ _)
    simp [tryRound, h0, ih (fun m2 hm2 => hpre m2 (List.mem_cons_of_mem _ hm2))]

theorem runRounds_all_fail (env : ModelEnv) (R : Nat) (as : List Nat)
    (h : ∀ a ∈ as, ∀ m ∈ models_to_try, attemptModel env a m = none) :
    runRounds env R as =
      (as.bind (fun a => models_to_try.map (fun m => (a, m))),
       as.filterMap (fun a => if a < R - 1 then some ((a + 1) * 2) else none),
       none) := by
  induction as with
  | nil => rfl
  | cons a rest ih =>
    have hra := tryRound_all_fail env a models_to_try (h a (List.mem_cons_self _ _))
    have htail := ih (fun a2 ha2 => h a2 (List.mem_cons_of_mem _ ha2))
    simp only [runRounds, hra, htail]
    by_cases hlt : a < R - 1 <;> simp [List.filterMap_cons, hlt]

theorem runRounds_first_success (env : ModelEnv) (R : Nat)
    (asPre : List Nat) (a : Nat) (asRest : List Nat)
    (mPre : List String) (m : String) (mRest : List String) (d : PyDict)
    (hModels : models_to_try = mPre ++ m :: mRest)
    (hpreRounds : ∀ r ∈ asPre, ∀ m2 ∈ models_to_try, attemptModel env r m2 = none)
    (hpreModels : ∀ m2 ∈ mPre, attemptModel env a m2 = none)
    (hm : attemptModel env a m = some d) :
    runRounds env R (asPre ++ a :: asRest) =
      (asPre.bind (fun r => models_to_try.map (fun m2 => (r, m2)))
         ++ (mPre ++ [m]).map (fun m2 => (a, m2)),
       asPre.filterMap (fun r => if r < R - 1 then some ((r + 1) * 2) else none),
       some (m, d)) := by
  induction asPre with
  | nil =>
    have hr : tryRound env a models_to_try = (mPre ++ [m], some (m, d)) := by
      rw [hModels]
      exact tryRound_first_success env a mPre m mRest d hpreModels hm
    simp [runRounds, hr]
  | cons r0 rest ih =>
    have hr0 := tryRound_all_fail env r0 models_to_try (hpreRounds r0 (List.mem_cons_self _ _))
    have htail := ih (fun r2 hr2 => hpreRounds r2 (List.mem_cons_of_mem _ hr2))
    simp only [List.cons_append, runRounds, hr0, htail]
    by_cases hlt : r0 < R - 1 <;> simp [List.filterMap_cons, hlt, htail]

theorem filterMap_backoff_all_lt (l : List Nat) (c : Nat) (h : ∀ a ∈ l, a < c) :
    l.filterMap (fun a => if a < c then some ((a + 1) * 2) else none) =
      l.map (fun a => (a + 1) * 2) := by
  induction l with
  | nil => rfl
  | cons a rest ih =>
    have ha := h a (List.mem_cons_self _ _)
    simp [List.filterMap_cons, ha, ih (fun a2 ha2 => h a2 (List.mem_cons_of_mem _ ha2))]

theorem range_filterMap_backoff (R : Nat) :
    (List.range R).filterMap (fun a => if a < R - 1 then some ((a + 1) * 2) else none) =
      backoffs R := by
  unfold backoffs
  cases R with
  | zero => rfl
  | succ n =>
    rw [List.range_succ n]
    rw [List.filterMap_append]
    rw [filterMap_backoff_all_lt (List.range n) ((n + 1) - 1)
      (fun a ha => by simpa using List.mem_range.mp ha)]
    simp

/-- Splitting `List.range R` at a member `a`. -/
theorem range_split_at (a R : Nat) (h : a < R) :
    List.range R = List.range a ++ a :: (List.range (R - a - 1)).map (fun i => a + 1 + i) := by
  have h1 : R = a + (R - a) := by omega
  have h2 : R - a = 1 + (R - a - 1) := by omega
  rw [h1, List.range_add a (R - a), h2, List.range_add 1 (R - a - 1)]
  simp [List.range_succ 0, Nat.add_assoc]

/-! ### Lemmas: `analyze_image` paths and record fields -/

theorem analyze_image_fail (env : ModelEnv) (p : PyPath) (R : Nat) (e : String)
    (h : failReason env R = some e) :
    analyze_image env p R = failureRecord p env.timestamp e := by
  unfold failReason at h
  unfold analyze_image
  cases he : env.encodeResult with
  | error e2 =>
    rw [he] at h
    simp only [Option.some.injEq] at h
    rw [h]
  | ok u =>
    rw [he] at h
    cases hl : (modelLoop env R).2.2 with
    | some pr => rw [hl] at h; simp at h
    | none =>
      rw [hl] at h
      simp only [Option.some.injEq] at h
      rw [h]

theorem analyze_image_success (env : ModelEnv) (p : PyPath) (R : Nat)
    (m : String) (d : PyDict)
    (henc : env.encodeResult = .ok ())
    (hl : (modelLoop env R).2.2 = some (m, d)) :
    analyze_image env p R = successRecord p env.timestamp m d := by
  unfold analyze_image
  rw [henc, hl]

theorem analyze_image_shape (env : ModelEnv) (p : PyPath) (R : Nat) :
    (∃ m d, analyze_image env p R = successRecord p env.timestamp m d) ∨
    (∃ e, analyze_image env p R = failureRecord p env.timestamp e) := by
  unfold analyze_image
  cases he : env.encodeResult with
  | error e => right; exact ⟨e, rfl⟩
  | ok u =>
    cases hl : (modelLoop env R).2.2 with
    | some pr =>
      obtain ⟨m, d⟩ := pr
      left; exact ⟨m, d, rfl⟩
    | none => right; exact ⟨_, rfl⟩

theorem failureRecord_fields (p : PyPath) (ts e : String) :
    pyGet (failureRecord p ts e) "depth_cm_estimate" = some .null ∧
    pyGet (failureRecord p ts e) "depth_range" = some (.str "unknown") ∧
    pyGet (failureRecord p ts e) "passability" = some (.str "unknown") ∧
    pyGet (failureRecord p ts e) "analysis_success" = some (.bool false) ∧
    pyGet (failureRecord p ts e) "model_used" = some (.str "none") ∧
    pyGet (failureRecord p ts e) "error" = some (.str e) ∧
    pyGet (failureRecord p ts e) "justification" = some (.str ("分析失败: " ++ e)) := by
  refine ⟨?_, ?_, ?_, ?_, ?_, ?_, ?_⟩ <;> rfl

theorem successRecord_get (p : PyPath) (ts m : String) (d : PyDict) (x : String) :
    pyGet (successRecord p ts m d) x =
      firstSome (pyGet d x) (pyGet (baseRecord p ts m) x) :=
  pyGet_mergeDict d (baseRecord p ts m) x

theorem keys_required_get_none (d : PyDict)
    (hall : d.all (fun kv => required_fields.contains kv.1) = true)
    (k : String) (hk : required_fields.contains k = false) :
    pyGet d k = none := by
  apply pyGet_none_of_keys
  intro kv hmem heq
  have h2 := List.all_eq_true.mp hall kv hmem
  rw [heq] at h2
  rw [h2] at hk
  cases hk

theorem schema_passability (d : PyDict) (h : matchesResponseSchema d = true) :
    ∃ s, pyGet d "passability" = some (.str s) ∧ passability_enum.contains s = true := by
  unfold matchesResponseSchema at h
  simp only [Bool.and_eq_true] at h
  obtain ⟨⟨⟨⟨hnum, hrange⟩, hpass⟩, hjust⟩, hall⟩ := h
  cases hp : pyGet d "passability" with
  | none => rw [hp] at hpass; simp [isPassabilityOpt] at hpass
  | some v =>
    rw [hp] at hpass
    cases v with
    | str s => exact ⟨s, rfl, hpass⟩
    | null => simp [isPassabilityOpt] at hpass
    | bool b => simp [isPassabilityOpt] at hpass
    | num n => simp [isPassabilityOpt] at hpass
    | arr xs => simp [isPassabilityOpt] at hpass
    | obj fs => simp [isPassabilityOpt] at hpass

theorem schema_all_required (d : PyDict) (h : matchesResponseSchema d = true) :
    d.all (fun kv => required_fields.contains kv.1) = true := by
  unfold matchesResponseSchema at h
  simp only [Bool.and_eq_true] at h
  exact h.2

/-! ### Claim C1 -/

/-- C1 counterexample: `parse_json_response` succeeds on the JSON text
`\x7b"foo": 1\x7d`, returning an object that has none of the four required
content fields — the parser does not validate the field set, so the
claim "the returned object contains exactly the four required content
fields" fails. -/
theorem claim_c1_counterexample :
    parse_json_response "\x7b\"foo\": 1\x7d" = some (.obj [("foo", .num 1)]) ∧
    pyGet [("foo", JsonValue.num 1)] "depth_cm_estimate" = none ∧
    pyGet [("foo", JsonValue.num 1)] "depth_range" = none ∧
    pyGet [("foo", JsonValue.num 1)] "passability" = none ∧
    pyGet [("foo", JsonValue.num 1)] "justification" = none :=
  ⟨rfl, rfl, rfl, rfl, rfl⟩

/-- C1 (amended): whenever `parse_json_response` returns successfully,
the returned value is the JSON decoding of the input text itself or of a
contiguous substring of it (the recovered brace block) — so no field is
ever fabricated — but nothing guarantees that the four required content
fields are present; that is enforced only by the schema sent with the
API request. -/
theorem claim_c1 (content : String) (v : JsonValue)
    (h : parse_json_response content = some v) :
    ∃ s pre post : String, content = pre ++ s ++ post ∧ json_loads s = some v := by
  unfold parse_json_response at h
  cases hd : json_loads content with
  | some w =>
    rw [hd] at h
    simp only [Option.some.injEq] at h
    subst h
    refine ⟨content, "", "", ?_, hd⟩
    rw [String.append_empty]
    rfl
  | none =>
    rw [hd] at h
    cases he : extract_json_block content with
    | none => rw [he] at h; simp at h
    | some s =>
      rw [he] at h
      dsimp only at h
      cases hs : json_loads s with
      | none => rw [hs] at h; simp at h
      | some w =>
        rw [hs] at h
        simp only [Option.some.injEq] at h
        subst h
        unfold extract_json_block at he
        cases hb : firstBraceBlock content.data with
        | none => rw [hb] at he; simp at he
        | some bl =>
          rw [hb] at he
          simp only [Option.map_some', Option.some.injEq] at he
          obtain ⟨pre, post, hpp⟩ := firstBraceBlock_decomp content.data bl hb
          refine ⟨s, String.mk pre, String.mk post, ?_, hs⟩
          rw [← he, string_mk_append, string_mk_append]
          exact String.ext (by rw [hpp])

/-- C1 witness: the amended theorem applied to prose-embedded content
that the recovery path decodes. -/
theorem claim_c1_witness :
    ∃ s pre post : String,
      "note \x7b\"depth_cm_estimate\": 2\x7d end" = pre ++ s ++ post ∧
      json_loads s = some (.obj [("depth_cm_estimate", JsonValue.num 2)]) :=
  claim_c1 "note \x7b\"depth_cm_estimate\": 2\x7d end" _ rfl

/-! ### Claim C8 -/

/-- C8 counterexample: the prose-embedded object
`\x7b"a": \x7b"b": 1\x7d, "depth_cm_estimate": 3\x7d` is a brace-delimited JSON
object holding the depth key, yet `parse_json_response` raises (the
recovery regex cannot cross the inner `\x7d`), refuting the claimed
"recovers whenever the text contains a brace-delimited JSON object
holding the key". -/
theorem claim_c8_counterexample :
    parse_json_response "note \x7b\"a\": \x7b\"b\": 1\x7d, \"depth_cm_estimate\": 3\x7d end" = none ∧
    json_loads "\x7b\"a\": \x7b\"b\": 1\x7d, \"depth_cm_estimate\": 3\x7d" =
      some (.obj [("a", .obj [("b", .num 1)]), ("depth_cm_estimate", .num 3)]) ∧
    "note \x7b\"a\": \x7b\"b\": 1\x7d, \"depth_cm_estimate\": 3\x7d end" =
      "note " ++ "\x7b\"a\": \x7b\"b\": 1\x7d, \"depth_cm_estimate\": 3\x7d" ++ " end" :=
  ⟨rfl, rfl, rfl⟩

/-- C8 (amended): for input that is not valid JSON, `parse_json_response`
recovers the decoded object when the text contains — after a prefix free
of `\x7b` — a flat brace-delimited object (no `\x7d` inside) holding the key
`"depth_cm_estimate"`, whose text decodes as JSON; nested-brace objects
are not recovered.  When the scan finds no candidate block, the original
decode error is propagated. -/
theorem claim_c8 :
    (∀ (pre mid post : String) (v : JsonValue),
      lbrace ∉ pre.data → rbrace ∉ mid.data →
      containsSub mid.data depthKeyChars = true →
      json_loads (pre ++ "\x7b" ++ mid ++ "\x7d" ++ post) = none →
      json_loads ("\x7b" ++ mid ++ "\x7d") = some v →
      parse_json_response (pre ++ "\x7b" ++ mid ++ "\x7d" ++ post) = some v) ∧
    (∀ content : String, json_loads content = none →
      firstBraceBlock content.data = none →
      parse_json_response content = none) := by
  constructor
  · intro pre mid post v hpre hmid hkey hdirect hblock
    unfold parse_json_response
    rw [hdirect]
    unfold extract_json_block
    have hdata : (pre ++ "\x7b" ++ mid ++ "\x7d" ++ post).data
        = pre.data ++ lbrace :: (mid.data ++ rbrace :: post.data) := by
      simp [String.data_append, lbrace, rbrace,
        show ("\x7b" : String).data = ['\x7b'] from rfl,
        show ("\x7d" : String).data = ['\x7d'] from rfl]
    rw [hdata, firstBraceBlock_embedded pre.data mid.data post.data hpre hmid hkey]
    have hstr : String.mk (lbrace :: (mid.data ++ [rbrace])) = "\x7b" ++ mid ++ "\x7d" := rfl
    simp only [Option.map_some', hstr, hblock]
  · intro content hdirect hnone
    unfold parse_json_response extract_json_block
    rw [hdirect, hnone]
    rfl

/-- C8 witness: the amended theorem applied to a concrete
prose-embedded flat object. -/
theorem claim_c8_witness :
    parse_json_response ("oops " ++ "\x7b" ++ "\"depth_cm_estimate\": 7" ++ "\x7d" ++ "!") =
      some (.obj [("depth_cm_estimate", JsonValue.num 7)]) :=
  claim_c8.1 "oops " "\"depth_cm_estimate\": 7" "!" _
    (by decide) (by decide) rfl rfl rfl

/-! ### Claim C5 -/

/-- C5: `get_image_files` returns exactly the supported image files
(a permutation of the qualifying entries) ordered so that every file
whose stem parses as an integer precedes every file whose stem does not;
integer-stem files are ordered by their integer value ascending, and the
remaining files are ordered by code-point-lexicographic filename; in
particular `9.jpg, 29.jpg, 2.png, report.jpg` is processed as
`2.png, 9.jpg, 29.jpg, report.jpg`. -/
theorem claim_c5 :
    (∀ entries : List PyPath,
      (get_image_files entries).Perm (entries.filter qualifies) ∧
      (get_image_files entries).Pairwise (fun a b =>
        (∀ n, pyInt (pathStem b.name) = some n →
          ∃ m, pyInt (pathStem a.name) = some m ∧ m ≤ n) ∧
        (pyInt (pathStem a.name) = none →
          pyInt (pathStem b.name) = none ∧ strLeB a.name.data b.name.data = true))) ∧
    get_image_files
      [⟨"data/test_images", "9.jpg", true⟩, ⟨"data/test_images", "29.jpg", true⟩,
       ⟨"data/test_images", "2.png", true⟩, ⟨"data/test_images", "report.jpg", true⟩] =
      [⟨"data/test_images", "2.png", true⟩, ⟨"data/test_images", "9.jpg", true⟩,
       ⟨"data/test_images", "29.jpg", true⟩, ⟨"data/test_images", "report.jpg", true⟩] := by
  constructor
  · intro entries
    refine ⟨get_image_files_perm entries, ?_⟩
    apply List.Pairwise.imp ?_ (get_image_files_sorted entries)
    intro a b hab
    unfold keyLE at hab
    constructor
    · intro n hn
      rw [hn] at hab
      cases ha : pyInt (pathStem a.name) with
      | none => rw [ha] at hab; simp at hab
      | some m =>
        rw [ha] at hab
        exact ⟨m, rfl, of_decide_eq_true hab⟩
    · intro ha
      rw [ha] at hab
      cases hb : pyInt (pathStem b.name) with
      | none => rw [hb] at hab; exact ⟨rfl, hab⟩
      | some n => rw [hb] at hab; simp at hab
  · rfl

/-! ### Loop-exhaustion converse lemmas -/

theorem tryRound_none_all (env : ModelEnv) (a : Nat) (ms : List String)
    (h : (tryRound env a ms).2 = none) :
    ∀ m ∈ ms, attemptModel env a m = none := by
  induction ms with
  | nil => intro m hm; cases hm
  | cons m0 rest ih =>
    intro m hm
    cases hat : attemptModel env a m0 with
    | some d => exfalso; simp [tryRound, hat] at h
    | none =>
      rcases List.mem_cons.mp hm with hm0 | hmr
      · rw [hm0]; exact hat
      · have h2 : (tryRound env a rest).2 = none := by
          simp only [tryRound, hat] at h
          exact h
        exact ih h2 m hmr

theorem runRounds_none_all (env : ModelEnv) (R : Nat) (as : List Nat)
    (h : (runRounds env R as).2.2 = none) :
    ∀ a ∈ as, ∀ m2 ∈ models_to_try, attemptModel env a m2 = none := by
  induction as with
  | nil => intro a ha; cases ha
  | cons a0 rest ih =>
    intro a ha m2 hm2
    cases htr : (tryRound env a0 models_to_try).2 with
    | some s =>
      exfalso
      simp only [runRounds, htr] at h
      exact Option.noConfusion h
    | none =>
      have htail : (runRounds env R rest).2.2 = none := by
        simp only [runRounds, htr] at h
        exact h
      rcases List.mem_cons.mp ha with ha0 | har
      · rw [ha0]; exact tryRound_none_all env a0 models_to_try htr m2 hm2
      · exact ih htail a har m2 hm2

/-! ### Claim C6 -/

/-- Shared concrete fixture: a target image path. -/
def pathEx : PyPath := ⟨"data/test_images", "1.jpg", true⟩

/-- C6 counterexample: when the first model's content parses to an
object that itself carries a `model_used` key, the dict spread
`\x7b..., **analysis_data\x7d` shadows the metadata, so the returned success
record's `model_used` is NOT the identifier of the model that produced
it, refuting the claim as stated. -/
def c6OvEnv : ModelEnv :=
  ⟨.ok (), fun _ _ => some "\x7b\"model_used\": \"other\", \"depth_cm_estimate\": 1\x7d", "t0"⟩

theorem claim_c6_counterexample :
    attemptModel c6OvEnv 0 "gpt-4o" =
      some [("model_used", .str "other"), ("depth_cm_estimate", .num 1)] ∧
    pyGet (analyze_image c6OvEnv pathEx 3) "model_used" = some (.str "other") ∧
    ("other" : String) ≠ "gpt-4o" :=
  ⟨rfl, rfl, by decide⟩

/-- C6 (amended): as soon as any model in any round returns content that
parses to an object, the loop stops immediately — the attempt trace is
exactly the failed prefix plus the successful attempt, and no later
model of that round and no later round is attempted — and `analyze_image`
returns the success record built with `model_used` set to that model's
identifier (which the spread of the parsed fields can shadow only if the
response itself contains a `model_used` key, as the counterexample
shows; the declared schema forbids such a key). -/
theorem claim_c6 (env : ModelEnv) (p : PyPath) (R a : Nat)
    (mPre : List String) (m : String) (mRest : List String) (d : PyDict)
    (ha : a < R)
    (hModels : models_to_try = mPre ++ m :: mRest)
    (hRounds : ∀ r < a, ∀ m2 ∈ models_to_try, attemptModel env r m2 = none)
    (hPre : ∀ m2 ∈ mPre, attemptModel env a m2 = none)
    (hm : attemptModel env a m = some d)
    (henc : env.encodeResult = .ok ()) :
    modelLoop env R =
      ((List.range a).bind (fun r => models_to_try.map (fun m2 => (r, m2)))
         ++ (mPre ++ [m]).map (fun m2 => (a, m2)),
       (List.range a).map (fun r => (r + 1) * 2),
       some (m, d)) ∧
    analyze_image env p R = successRecord p env.timestamp m d := by
  have hsplit := range_split_at a R ha
  have hrun := runRounds_first_success env R (List.range a) a
      ((List.range (R - a - 1)).map (fun i => a + 1 + i)) mPre m mRest d hModels
      (fun r hr => hRounds r (List.mem_range.mp hr)) hPre hm
  have hsleep : (List.range a).filterMap
        (fun r => if r < R - 1 then some ((r + 1) * 2) else none)
      = (List.range a).map (fun r => (r + 1) * 2) :=
    filterMap_backoff_all_lt _ _ (fun r hr => by
      have := List.mem_range.mp hr
      omega)
  have hloop : modelLoop env R =
      ((List.range a).bind (fun r => models_to_try.map (fun m2 => (r, m2)))
         ++ (mPre ++ [m]).map (fun m2 => (a, m2)),
       (List.range a).map (fun r => (r + 1) * 2),
       some (m, d)) := by
    unfold modelLoop
    rw [hsplit, hrun, hsleep]
  exact ⟨hloop, analyze_image_success env p R m d henc (by rw [hloop])⟩

def c6WitEnv : ModelEnv :=
  ⟨.ok (), fun _ m2 => if m2 = "gpt-4o" then none
    else some "\x7b\"depth_cm_estimate\": 12, \"depth_range\": \"10–15\", \"passability\": \"pass\", \"justification\": \"wheel stop\"\x7d",
   "t1"⟩

def c6WitFields : PyDict :=
  [("depth_cm_estimate", .num 12), ("depth_range", .str "10–15"),
   ("passability", .str "pass"), ("justification", .str "wheel stop")]

/-- C6 witness: first model of round zero raises, the fallback model
succeeds; the loop stops after exactly those two attempts. -/
theorem claim_c6_witness :
    modelLoop c6WitEnv 3 =
      ([(0, "gpt-4o"), (0, "gpt-4o-mini")], [], some ("gpt-4o-mini", c6WitFields)) ∧
    analyze_image c6WitEnv pathEx 3 = successRecord pathEx "t1" "gpt-4o-mini" c6WitFields :=
  claim_c6 c6WitEnv pathEx 3 0 ["gpt-4o"] "gpt-4o-mini" [] c6WitFields
    (by decide) rfl
    (fun r hr => absurd hr (Nat.not_lt_zero r))
    (by intro m2 hm2; rw [List.mem_singleton.mp hm2]; rfl)
    rfl rfl

/-! ### Claim C7 -/

/-- C7: the loop reaches its failure terminal state only after every
model identifier has been attempted in every one of the `R` rounds (a
model raising never skips the rest of its round), and after each fully
failed round `r < R` (1-indexed) the loop sleeps `r * 2` seconds; in
that case `analyze_image` (encoding having succeeded) returns the
failure record for the final exhaustion exception. -/
theorem claim_c7 (env : ModelEnv) (R : Nat)
    (h : (modelLoop env R).2.2 = none) :
    (modelLoop env R).1 = attemptSchedule R ∧
    (modelLoop env R).2.1 = backoffs R ∧
    (∀ p : PyPath, env.encodeResult = .ok () →
      analyze_image env p R = failureRecord p env.timestamp "所有模型和重试都失败了") := by
  have hall := runRounds_none_all env R (List.range R) h
  have hrun := runRounds_all_fail env R (List.range R) hall
  refine ⟨?_, ?_, ?_⟩
  · show (runRounds env R (List.range R)).1 = attemptSchedule R
    rw [hrun]
    rfl
  · show (runRounds env R (List.range R)).2.1 = backoffs R
    rw [hrun]
    exact range_filterMap_backoff R
  · intro p henc
    apply analyze_image_fail
    unfold failReason
    rw [henc, h]

def allFailEnv : ModelEnv := ⟨.ok (), fun _ _ => none, "t2"⟩

/-- C7 witness: with every call raising, three rounds attempt both
models each and sleep 2 then 4 seconds between rounds. -/
theorem claim_c7_witness :
    (modelLoop allFailEnv 3).1 = attemptSchedule 3 ∧
    (modelLoop allFailEnv 3).2.1 = backoffs 3 ∧
    analyze_image allFailEnv pathEx 3 =
      failureRecord pathEx "t2" "所有模型和重试都失败了" :=
  ⟨(claim_c7 allFailEnv 3 rfl).1, (claim_c7 allFailEnv 3 rfl).2.1,
   (claim_c7 allFailEnv 3 rfl).2.2 pathEx rfl⟩

/-! ### Claim C4 -/

/-- C4 counterexample: a parseable response that itself carries
`"analysis_success": false` is spread over the metadata, producing a
record whose `analysis_success` is `false` while `depth_cm_estimate` is
`5` (not null) and `depth_range` is a band (not `"unknown"`) — refuting
the claim for records whose `analysis_success` field is false. -/
def c4OvEnv : ModelEnv :=
  ⟨.ok (), fun _ _ => some "\x7b\"depth_cm_estimate\": 5, \"depth_range\": \"5–10\", \"passability\": \"pass\", \"justification\": \"ok\", \"analysis_success\": false\x7d", "t3"⟩

theorem claim_c4_counterexample :
    pyGet (analyze_image c4OvEnv pathEx 3) "analysis_success" = some (.bool false) ∧
    pyGet (analyze_image c4OvEnv pathEx 3) "depth_cm_estimate" = some (.num 5) ∧
    pyGet (analyze_image c4OvEnv pathEx 3) "depth_range" = some (.str "5–10") ∧
    some (JsonValue.num 5) ≠ some JsonValue.null ∧
    ("5–10" : String) ≠ "unknown" :=
  ⟨rfl, rfl, rfl, fun h => JsonValue.noConfusion (Option.some.inj h), by decide⟩

/-- C4 (amended): every record produced by `analyze_image`'s failure
path (the `except` handler — encoding failure or model exhaustion) has
`depth_cm_estimate` null, `depth_range = "unknown"`, `passability =
"unknown"` and `analysis_success = false`; a record with
`analysis_success == false` can bypass these values only when a
success-path response itself contained an `analysis_success` key that
shadowed the metadata (see the counterexample). -/
theorem claim_c4 (env : ModelEnv) (p : PyPath) (R : Nat) (e : String)
    (h : failReason env R = some e) :
    pyGet (analyze_image env p R) "depth_cm_estimate" = some .null ∧
    pyGet (analyze_image env p R) "depth_range" = some (.str "unknown") ∧
    pyGet (analyze_image env p R) "passability" = some (.str "unknown") ∧
    pyGet (analyze_image env p R) "analysis_success" = some (.bool false) := by
  have heq := analyze_image_fail env p R e h
  rw [heq]
  have hf := failureRecord_fields p env.timestamp e
  exact ⟨hf.1, hf.2.1, hf.2.2.1, hf.2.2.2.1⟩

def encFailEnv : ModelEnv := ⟨.error "图像编码失败: boom", fun _ _ => none, "t4"⟩

/-- C4 witness: an image-encoding failure produces the expected
failure-shaped content fields. -/
theorem claim_c4_witness :
    pyGet (analyze_image encFailEnv pathEx 3) "depth_cm_estimate" = some .null ∧
    pyGet (analyze_image encFailEnv pathEx 3) "depth_range" = some (.str "unknown") ∧
    pyGet (analyze_image encFailEnv pathEx 3) "passability" = some (.str "unknown") ∧
    pyGet (analyze_image encFailEnv pathEx 3) "analysis_success" = some (.bool false) :=
  claim_c4 encFailEnv pathEx 3 "图像编码失败: boom" rfl

/-! ### Claim C10 -/

/-- C10: every failure record built by the handler — for any failure
cause, including an encoding failure before any model attempt — has
`model_used = "none"`, `error` equal to the string form of the raised
exception, and a non-empty justification embedding that same error
text, besides the null/"unknown" content fields. -/
theorem claim_c10 (env : ModelEnv) (p : PyPath) (R : Nat) (e : String)
    (h : failReason env R = some e) :
    analyze_image env p R = failureRecord p env.timestamp e ∧
    pyGet (analyze_image env p R) "model_used" = some (.str "none") ∧
    pyGet (analyze_image env p R) "error" = some (.str e) ∧
    pyGet (analyze_image env p R) "justification" = some (.str ("分析失败: " ++ e)) ∧
    (∃ pre post : String, "分析失败: " ++ e = pre ++ e ++ post) ∧
    ("分析失败: " ++ e) ≠ "" := by
  have heq := analyze_image_fail env p R e h
  have hf := failureRecord_fields p env.timestamp e
  refine ⟨heq, by rw [heq]; exact hf.2.2.2.2.1, by rw [heq]; exact hf.2.2.2.2.2.1,
    by rw [heq]; exact hf.2.2.2.2.2.2, ⟨"分析失败: ", "", ?_⟩, ?_⟩
  · rw [String.append_empty]
  · intro hemp
    have hlen : ("分析失败: " ++ e).length = 0 := by rw [hemp]; rfl
    rw [String.length_append] at hlen
    have h6 : ("分析失败: " : String).length = 6 := rfl
    omega

/-- C10 witness: total exhaustion of all models yields the handler
record for the final exception. -/
theorem claim_c10_witness :
    analyze_image allFailEnv pathEx 3 = failureRecord pathEx "t2" "所有模型和重试都失败了" ∧
    pyGet (analyze_image allFailEnv pathEx 3) "model_used" = some (.str "none") ∧
    pyGet (analyze_image allFailEnv pathEx 3) "error" = some (.str "所有模型和重试都失败了") ∧
    pyGet (analyze_image allFailEnv pathEx 3) "justification" =
      some (.str ("分析失败: " ++ "所有模型和重试都失败了")) ∧
    (∃ pre post : String,
      "分析失败: " ++ "所有模型和重试都失败了" = pre ++ "所有模型和重试都失败了" ++ post) ∧
    ("分析失败: " ++ "所有模型和重试都失败了") ≠ "" :=
  claim_c10 allFailEnv pathEx 3 "所有模型和重试都失败了" rfl

/-! ### Claim C2 -/

/-- C2 counterexample: a response that conforms to the declared
`response_schema` — whose `passability` enumeration includes `"unknown"`
and whose `depth_range` is an unconstrained string — yields a success
record with `passability = "unknown"` (not in `{pass, caution, unsafe}`)
and `depth_range` outside the fixed bands, refuting the claimed
invariant. -/
def c2Env : ModelEnv :=
  ⟨.ok (), fun _ _ => some "\x7b\"depth_cm_estimate\": 30, \"depth_range\": \"approximately 30\", \"passability\": \"unknown\", \"justification\": \"glare\"\x7d", "t5"⟩

def c2Fields : PyDict :=
  [("depth_cm_estimate", .num 30), ("depth_range", .str "approximately 30"),
   ("passability", .str "unknown"), ("justification", .str "glare")]

theorem claim_c2_counterexample :
    matchesResponseSchema c2Fields = true ∧
    attemptModel c2Env 0 "gpt-4o" = some c2Fields ∧
    pyGet (analyze_image c2Env pathEx 3) "analysis_success" = some (.bool true) ∧
    pyGet (analyze_image c2Env pathEx 3) "passability" = some (.str "unknown") ∧
    ("unknown" : String) ∉ (["pass", "caution", "unsafe"] : List String) ∧
    pyGet (analyze_image c2Env pathEx 3) "depth_range" = some (.str "approximately 30") ∧
    ("approximately 30" : String) ∉ depth_bands :=
  ⟨rfl, rfl, rfl, rfl, by decide, rfl, by decide⟩

/-- C2 (amended): for a success record whose parsed response conforms to
`response_schema`, the `error` field is absent and `analysis_success` is
true, and `passability` lies in the schema's enumeration
`\x7bpass, caution, unsafe, unknown\x7d`; the code nowhere restricts
`passability` to `\x7bpass, caution, unsafe\x7d` nor `depth_range` to the nine
fixed bands — those constraints appear only in the prompt text. -/
theorem claim_c2 (env : ModelEnv) (p : PyPath) (R : Nat) (m : String) (d : PyDict)
    (henc : env.encodeResult = .ok ())
    (hl : (modelLoop env R).2.2 = some (m, d))
    (hschema : matchesResponseSchema d = true) :
    pyGet (analyze_image env p R) "error" = none ∧
    pyGet (analyze_image env p R) "analysis_success" = some (.bool true) ∧
    (∃ s, pyGet (analyze_image env p R) "passability" = some (.str s) ∧
      passability_enum.contains s = true) := by
  have heq := analyze_image_success env p R m d henc hl
  rw [heq]
  have hall := schema_all_required d hschema
  have herr : pyGet d "error" = none :=
    keys_required_get_none d hall "error" (by decide)
  have hsucc : pyGet d "analysis_success" = none :=
    keys_required_get_none d hall "analysis_success" (by decide)
  obtain ⟨s, hs, hmem⟩ := schema_passability d hschema
  refine ⟨?_, ?_, ⟨s, ?_, hmem⟩⟩
  · rw [successRecord_get, herr]
    rfl
  · rw [successRecord_get, hsucc]
    rfl
  · rw [successRecord_get, hs]
    rfl

/-- C2 witness: a schema-conforming success record observed end to
end. -/
theorem claim_c2_witness :
    pyGet (analyze_image c6WitEnv pathEx 3) "error" = none ∧
    pyGet (analyze_image c6WitEnv pathEx 3) "analysis_success" = some (.bool true) ∧
    (∃ s, pyGet (analyze_image c6WitEnv pathEx 3) "passability" = some (.str s) ∧
      passability_enum.contains s = true) :=
  claim_c2 c6WitEnv pathEx 3 "gpt-4o-mini" c6WitFields rfl rfl rfl

/-! ### Claim C3 -/

def c3Env : BatchEnv := ⟨fun _ => allFailEnv, "ts0"⟩

def c3Entries : List PyPath := [⟨"data/test_images", "notes.txt", true⟩]

/-- C3 counterexample: a run over an existing directory with zero
qualifying image files returns the well-formed zero report, but the
write list is empty — the early return (lines 407-417) skips the
serialization step, so the final report file is NOT produced at the
configured output location, refuting "the final report file always
exists". -/
theorem claim_c3_counterexample :
    analyze_batch c3Env true c3Entries "data/test_images"
        "data/results/analysis_results.json" =
      .ok (⟨⟨0, 0, 0, "0.0%", "ts0"⟩, []⟩, ([] : List (String × BatchReport))) ∧
    (∀ rep : BatchReport,
      ("data/results/analysis_results.json", rep) ∉ ([] : List (String × BatchReport))) :=
  ⟨rfl, fun rep h => List.not_mem_nil _ h⟩

/-- C3 (amended): over an existing input directory with zero qualifying
image files, `analyze_batch` returns the report
`\x7btotal_images: 0, successful_analyses: 0, failed_analyses: 0,
success_rate: "0.0%"\x7d` with an empty results sequence — but performs no
file write: the report is only serialized to the output location when at
least one qualifying image exists. -/
theorem claim_c3 (env : BatchEnv) (entries : List PyPath)
    (images_dir output_file : String)
    (h : get_image_files entries = []) :
    analyze_batch env true entries images_dir output_file =
      .ok (⟨⟨0, 0, 0, "0.0%", env.sumTimestamp⟩, []⟩, []) := by
  simp [analyze_batch, h]

/-- C3 witness: the amended theorem at an empty directory. -/
theorem claim_c3_witness :
    analyze_batch c3Env true ([] : List PyPath) "d" "o" =
      .ok (⟨⟨0, 0, 0, "0.0%", "ts0"⟩, []⟩, []) :=
  claim_c3 c3Env [] "d" "o" rfl

/-! ### Claim C9 -/

/-- C9: a batch run over an existing directory returns exactly one
record per discovered image file, in processing order — the results are
literally the per-file `analyze_image` outcomes — and every record is
either a success record or a failure-shaped record: a single image's
total failure (any exception, including encoding failure or model
exhaustion) is converted into a failure record at that file's position
and never aborts the batch. -/
theorem claim_c9 (env : BatchEnv) (entries : List PyPath)
    (images_dir output_file : String)
    (rep : BatchReport) (ws : List (String × BatchReport))
    (h : analyze_batch env true entries images_dir output_file = .ok (rep, ws)) :
    rep.results = (get_image_files entries).enum.map
      (fun pr => analyze_image (env.image pr.1) pr.2 3) ∧
    rep.results.length = (get_image_files entries).length ∧
    (∀ r ∈ rep.results,
      (∃ i p m d, r = successRecord p (env.image i).timestamp m d) ∨
      (∃ i p e, r = failureRecord p (env.image i).timestamp e)) := by
  have hres : rep.results = (get_image_files entries).enum.map
      (fun pr => analyze_image (env.image pr.1) pr.2 3) := by
    by_cases hemp : (get_image_files entries).isEmpty
    · simp only [analyze_batch, hemp] at h
      simp at h
      rw [List.isEmpty_iff.mp hemp]
      rw [← h.1]
      rfl
    · simp only [analyze_batch, hemp] at h
      simp at h
      rw [← h.1]
  refine ⟨hres, ?_, ?_⟩
  · rw [hres, List.length_map, List.enum_length]
  · intro r hr
    rw [hres] at hr
    obtain ⟨pr, hpr, heq⟩ := List.mem_map.mp hr
    rcases analyze_image_shape (env.image pr.1) pr.2 3 with ⟨m, d, hs⟩ | ⟨e, hf⟩
    · exact Or.inl ⟨pr.1, pr.2, m, d, by rw [← heq]; exact hs⟩
    · exact Or.inr ⟨pr.1, pr.2, e, by rw [← heq]; exact hf⟩

def c9Env : BatchEnv := ⟨fun i => if i = 0 then encFailEnv else c6WitEnv, "ts1"⟩

def c9Entries : List PyPath :=
  [⟨"data/test_images", "2.jpg", true⟩, ⟨"data/test_images", "1.jpg", true⟩]

def c9Rep : BatchReport :=
  ⟨⟨2, 1, 1, "50.0%", "ts1"⟩,
   (get_image_files c9Entries).enum.map
     (fun pr => analyze_image (c9Env.image pr.1) pr.2 3)⟩

/-- C9 witness: a two-image batch where the first image's encoding fails
and the second succeeds still yields one record per file, in order. -/
theorem claim_c9_witness :
    ∃ rep ws, analyze_batch c9Env true c9Entries "d" "o" = .ok (rep, ws) ∧
      rep.results = (get_image_files c9Entries).enum.map
        (fun pr => analyze_image (c9Env.image pr.1) pr.2 3) ∧
      rep.results.length = (get_image_files c9Entries).length :=
  ⟨c9Rep, [("o", c9Rep)], rfl,
   (claim_c9 c9Env c9Entries "d" "o" c9Rep [("o", c9Rep)] rfl).1,
   (claim_c9 c9Env c9Entries "d" "o" c9Rep [("o", c9Rep)] rfl).2.1⟩
